import Mathlib

/-!
Verification development for the AutoQuotes → Shopify sync backend.

The definitions below are a shallow embedding of the TypeScript sources:
* `src/backend/src/services/PricingEngine.ts` (rule resolution, net-cost
  computation, markup / override application),
* `src/backend/src/services/SyncManager.ts` (image-override merge, variant
  construction, the bulk-sync fetch loop, `setEnabledManufacturers`),
* `src/backend/src/models/Product.ts` (status enum).

JavaScript numbers are modelled as exact rationals (`ℚ`); `toFixed(2)`
followed by `parseFloat` is modelled as rounding to two decimal places with
ties rounded up, which matches the decimal behaviour of `toFixed` on the
exact values used here.  `undefined`-vs-present fields are modelled with
`Option`.  String primitives used by the code (`split`, `toUpperCase`,
`parseFloat`) are embedded as structurally recursive Lean functions over the
character list, matching their JS behaviour on the ASCII inputs involved.
-/

namespace AutoquotesShopify

/-- Model of `parseFloat(x.toFixed(2))`: round to 2 decimal places. -/
def round2 (q : ℚ) : ℚ := ((round (q * 100) : ℤ) : ℚ) / 100

/-- JS `String.prototype.toUpperCase` (ASCII range). -/
def jsToUpper (s : String) : String := String.mk (s.data.map Char.toUpper)

/-- Splitting a character list at a separator character; the JS contract:
`"".split(sep)` is `[""]`, separators at the ends produce empty fields. -/
def splitChar (sep : Char) : List Char → List (List Char)
  | [] => [[]]
  | c :: rest =>
    match splitChar sep rest with
    | [] => if c = sep then [[], [c]] else [[c]]
    | g :: gs => if c = sep then [] :: g :: gs else (c :: g) :: gs

/-- JS `String.prototype.split` with a single-character separator. -/
def jsSplit (sep : Char) (s : String) : List String :=
  (splitChar sep s.data).map String.mk

/-- The digits-and-sign decomposition produced by `parseFloat`; kept as
naturals so that parsing stays kernel-computable. -/
structure ParsedNum where
  isNeg : Bool
  intVal : Nat
  fracVal : Nat
  fracLen : Nat
deriving DecidableEq, Repr

/-- Numeric value of a list of decimal digit characters. -/
def digitsVal (cs : List Char) : Nat :=
  cs.foldl (fun n c => 10 * n + (c.toNat - ('0').toNat)) 0

/-- Structural part of JS `parseFloat` restricted to plain decimal notation:
skip leading whitespace, an optional sign, then a run of digits, an optional
decimal point and fraction digits; everything after the parsed prefix is
ignored.  Returns `none` (JS `NaN`) when no digit was consumed.  Exponent
notation is not modelled (discount-chain tokens are plain decimals). -/
def jsParseDecimal (s : String) : Option ParsedNum :=
  let cs := s.data.dropWhile Char.isWhitespace
  let signAndRest : Bool × List Char :=
    match cs with
    | '-' :: rest => (true, rest)
    | '+' :: rest => (false, rest)
    | _ => (false, cs)
  let cs1 := signAndRest.2
  let intPart := cs1.takeWhile Char.isDigit
  let cs2 := cs1.dropWhile Char.isDigit
  let fracPart :=
    match cs2 with
    | '.' :: rest => rest.takeWhile Char.isDigit
    | _ => []
  if intPart.isEmpty && fracPart.isEmpty then
    none
  else
    some { isNeg := signAndRest.1, intVal := digitsVal intPart,
           fracVal := digitsVal fracPart, fracLen := fracPart.length }

/-- Rational value of a parsed decimal. -/
def parsedVal (p : ParsedNum) : ℚ :=
  (if p.isNeg then (-1 : ℚ) else 1) *
    ((p.intVal : ℚ) + (p.fracVal : ℚ) / ((10 : ℚ) ^ p.fracLen))

/-- JS `parseFloat` as a rational (see `jsParseDecimal`). -/
def jsParseFloat (s : String) : Option ℚ := (jsParseDecimal s).map parsedVal

/-- `PricingRule.pricingMode` values (`PricingEngine.ts`). -/
inductive PricingMode
  | AQ_NET
  | LIST_DISCOUNT
deriving DecidableEq, Repr

/-- `PricingRule` interface (`PricingEngine.ts`). -/
structure PricingRule where
  manufacturer : String
  markupPercentage : ℚ
  overridePrice : Option ℚ := none
  pricingMode : Option PricingMode := none
  discountChain : Option String := none

/-- `PricingContext` interface (`PricingEngine.ts`). -/
structure PricingContext where
  ListPrice : ℚ
  NetPrice : ℚ
  Manufacturer : String
  ModelNumber : Option String := none

/-- `PricingResult` interface (`PricingEngine.ts`). -/
structure PricingResult where
  netCost : ℚ
  finalPrice : ℚ
deriving DecidableEq, Repr

/-- The engine's rule map, modelled as an association list carrying the
uppercase-normalised manufacturer keys the code inserts. -/
abbrev RuleMap := List (String × PricingRule)

/-- `this.rules.get(context.Manufacturer.toUpperCase()) || this.rules.get('DEFAULT')`
(`PricingEngine.calculatePrice`, line 107). -/
def resolveRule (rules : RuleMap) (manufacturer : String) : Option PricingRule :=
  (rules.lookup (jsToUpper manufacturer)).orElse (fun _ => rules.lookup "DEFAULT")

/-- `PricingEngine.calculateNetCost` (lines 76–104).  The trailing
`return context.ListPrice` of the source is unreachable because
`mode` is always one of the two enum values after the `|| 'AQ_NET'` default. -/
def calculateNetCost (context : PricingContext) (rule : Option PricingRule) : ℚ :=
  let mode := (rule.bind PricingRule.pricingMode).getD PricingMode.AQ_NET
  match mode with
  | PricingMode.AQ_NET =>
      if context.NetPrice > 0 then context.NetPrice else context.ListPrice
  | PricingMode.LIST_DISCOUNT =>
      let chain := (rule.bind PricingRule.discountChain).getD ""
      let discounts := (jsSplit '/' chain).filterMap jsParseFloat
      round2 (discounts.foldl (fun currentCost d => currentCost * (1 - d / 100)) context.ListPrice)

/-- JS truthiness of `rule?.overridePrice` (line 113): present and nonzero. -/
def truthyOverride (rule : Option PricingRule) : Bool :=
  match rule with
  | some r =>
      match r.overridePrice with
      | some p => if p = 0 then false else true
      | none => false
  | none => false

/-- `PricingEngine.calculatePrice` (lines 106–124). -/
def calculatePrice (context : PricingContext) (rules : RuleMap) : PricingResult :=
  let rule := resolveRule rules context.Manufacturer
  let netCost := calculateNetCost context rule
  if truthyOverride rule then
    { netCost := netCost, finalPrice := (rule.bind PricingRule.overridePrice).getD 0 }
  else
    let markup := (rule.map PricingRule.markupPercentage).getD 0
    let finalPrice := netCost * (1 + markup / 100)
    { netCost := round2 netCost, finalPrice := round2 finalPrice }

/-- The discount-chain computation as the specification words it: split the
chain on slashes, parse each token as a float, discard non-numeric tokens,
then starting from the list price multiply sequentially by
`(1 - discount / 100)` in chain order. -/
def specChainNet (chain : String) (listPrice : ℚ) : ℚ :=
  ((jsSplit '/' chain).filterMap jsParseFloat).foldl
    (fun acc d => acc * (1 - d / 100)) listPrice

theorem round2_idem (q : ℚ) : round2 (round2 q) = round2 q := by
  unfold round2
  have h : ((round (q * 100) : ℤ) : ℚ) / 100 * 100 = ((round (q * 100) : ℤ) : ℚ) := by
    ring
  rw [h, round_intCast]

/-! ## SyncManager: per-product sync payload construction

`SyncManager.syncProduct` (lines 434–578 of the current revision).  The two
external resolvers (`googleDrive.findImageOverride`,
`googleSheets.getVariants`) are modelled by their returned values, passed in
as arguments. -/

/-- `models` sub-object of an AutoQuotes product (`types/index.ts`). -/
structure AQModel where
  mfrModel : String

/-- `pricing` sub-object of an AutoQuotes product (`types/index.ts`). -/
structure AQPricing where
  netPrice : ℚ := 0
  listPrice : ℚ := 0

/-- One entry of `pictures` (`types/index.ts`). -/
structure AQPicture where
  url : String

/-- The fields of `AQProduct` that `syncProduct` reads. -/
structure AQProductM where
  productId : String
  mfrId : String := ""
  mfrName : String
  models : Option AQModel := none
  pricing : Option AQPricing := none
  pictures : Option (List AQPicture) := none

/-- Return value of `GoogleDriveAdapter.findImageOverride`: the mime type and
base64 payload of the first Drive file whose name contains the model number
(`GoogleDriveAdapter.ts`, lines 24–66); `none` both when nothing matches and
when the lookup or download fails. -/
structure ImageOverride where
  mimeType : String := ""
  base64 : String

/-- An image entry of the Shopify payload: either a remote `src` or an inline
base64 `attachment`. -/
structure ShopifyImage where
  src : Option String := none
  attachment : Option String := none
deriving DecidableEq, Repr

/-- One variant-override row from the Google-Sheets resolver (`AQVariant` in
`types/index.ts`).  `priceMod` is a number in the source type; the code
re-guards it with `|| 0`, modelled here as an `Option` with default 0. -/
structure SheetVariant where
  optionName : String
  optionValue : String
  priceMod : Option ℚ := none
  skuMod : String

/-- A variant of the Shopify payload as `syncProduct` builds it.  Note the
`price` field: the code assigns the entire `calculatePrice` result to it, so
its type here is `PricingResult`, not a number. -/
structure ShopifyVariant where
  price : PricingResult
  sku : String
  option1 : String

/-- Step 3 of `syncProduct` (lines 452–463): map supplier picture URLs to
`src` images, then, when the Drive override resolver returned a hit, replace
the whole list with a single base64 `attachment` entry. -/
def syncImages (p : AQProductM) (overrideImage : Option ImageOverride) : List ShopifyImage :=
  let images : List ShopifyImage :=
    match p.pictures with
    | some pics => pics.map (fun pic => { src := some pic.url })
    | none => []
  match overrideImage with
  | some o => [{ attachment := some o.base64 }]
  | none => images

/-- `const basePrice = aqProduct.pricing?.listPrice || 0` (line 450). -/
def basePriceOf (p : AQProductM) : ℚ :=
  (p.pricing.map AQPricing.listPrice).getD 0

/-- The pricing context `syncProduct` builds by spreading the product and
overwriting `ListPrice` / `Manufacturer` / `ModelNumber` (lines 475–480 and
491–496).  The spread copies no `NetPrice` field (the AutoQuotes product
keeps its net price inside `pricing`), so `context.NetPrice` is `undefined`
at run time; `undefined > 0` is false in JS, which is observationally the
same as `NetPrice = 0` in `calculateNetCost`. -/
def syncPricingContext (p : AQProductM) (modelNumber : String) (listPrice : ℚ) : PricingContext :=
  { ListPrice := listPrice, NetPrice := 0, Manufacturer := p.mfrName,
    ModelNumber := some modelNumber }

/-- Step 4 of `syncProduct` (lines 465–504): one Shopify variant per
override row (price modifier added to the base list price before pricing),
or a single implicit variant when no rows exist. -/
def syncVariants (p : AQProductM) (rules : RuleMap) (modelNumber : String)
    (customVariants : List SheetVariant) : List ShopifyVariant :=
  let basePrice := basePriceOf p
  if customVariants.length > 0 then
    customVariants.map (fun v =>
      { price := calculatePrice
          (syncPricingContext p modelNumber (basePrice + v.priceMod.getD 0)) rules,
        sku := modelNumber ++ v.skuMod,
        option1 := v.optionValue })
  else
    [ { price := calculatePrice (syncPricingContext p modelNumber basePrice) rules,
        sku := modelNumber, option1 := "Default Title" } ]

/-- Option-dimension list of the payload (lines 517–519): a single option
named after the first override row, or absent without rows. -/
def syncOptions : List SheetVariant → Option (List String)
  | [] => none
  | v :: _ => some [v.optionName]

/-! ## SyncManager: bulk sync fetch loop and manufacturer settings -/

/-- The per-manufacturer fetch loop of `syncAllProducts` (lines 375–380),
with `aqClient.getProducts` abstracted as a fallible function.  The result
records which manufacturer ids were attempted and either the concatenated
product lists or the first error: the loop body is inside the single
enclosing `try`, so a rejected fetch leaves the loop immediately. -/
def fetchLoop (fetch : String → Except String (List AQProductM)) :
    List String → List String × Except String (List AQProductM)
  | [] => ([], Except.ok [])
  | m :: ms =>
    match fetch m with
    | Except.error e => ([m], Except.error e)
    | Except.ok ps =>
      let rest := fetchLoop fetch ms
      (m :: rest.1,
        match rest.2 with
        | Except.error e => Except.error e
        | Except.ok qs => Except.ok (ps ++ qs))

/-- Manufacturer ids whose product lists `syncAllProducts` actually fetches. -/
def attemptedManufacturers (fetch : String → Except String (List AQProductM))
    (enabledMfrs : List String) : List String :=
  (fetchLoop fetch enabledMfrs).1

/-- `SyncManager.syncAllProducts` error skeleton (lines 357–432): the whole
body sits in one `try`; the `catch` only logs, so the method never rejects.
Modelled on the fetch phase, the only step the claims exercise. -/
def syncAllProducts (fetch : String → Except String (List AQProductM))
    (enabledMfrs : List String) : Except String Unit :=
  match (fetchLoop fetch enabledMfrs).2 with
  | Except.ok _ => Except.ok ()
  | Except.error _ => Except.ok ()

/-! ## Product status and enabled-manufacturer settings -/

/-- The `status` enum of the staged-product schema
(`models/Product.ts`, line 54): `['staged', 'synced', 'error']`. -/
inductive ProductStatus
  | staged
  | synced
  | error
deriving DecidableEq, Repr

/-- The literal strings of the schema's `enum` list (`Product.ts`, line 54). -/
def productStatusStrings : List String := ["staged", "synced", "error"]

/-- String stored in MongoDB for each status value. -/
def statusToString : ProductStatus → String
  | ProductStatus.staged => "staged"
  | ProductStatus.synced => "synced"
  | ProductStatus.error => "error"

/-- A staged product row, restricted to the fields the claim touches. -/
structure DbProduct where
  aqMfrId : String
  status : ProductStatus := ProductStatus.staged
deriving DecidableEq, Repr

/-- Contents of `data/sync_state.json`. -/
structure SyncStateFile where
  lastSync : Option String := none
  enabledManufacturers : Option (List String) := none
deriving DecidableEq, Repr

/-- Backend state visible to `setEnabledManufacturers`: the JSON state file
plus the staged-product rows in MongoDB. -/
structure BackendState where
  stateFile : SyncStateFile
  dbProducts : List DbProduct
deriving DecidableEq, Repr

/-- `SyncManager.setEnabledManufacturers` (lines 348–355): re-read the state
file, overwrite `enabledManufacturers`, write it back.  It touches nothing
else — in particular no product row. -/
def setEnabledManufacturers (s : BackendState) (ids : List String) : BackendState :=
  { s with stateFile := { s.stateFile with enabledManufacturers := some ids } }

/-! ## C1 -/

/-- C1: when the resolved rule's mode is `LIST_DISCOUNT`, `calculatePrice`
returns a net cost obtained by splitting the rule's `discountChain` on
slashes, parsing each token as a float, discarding non-numeric tokens,
multiplying the context's list price by `(1 - d/100)` for each discount `d`
in chain order, and rounding once at the end to two decimal places; the
chain `"50/10"` on list price 100 yields 45.00. -/
theorem C1_list_discount_netCost (ctx : PricingContext) (rules : RuleMap)
    (r : PricingRule) (hres : resolveRule rules ctx.Manufacturer = some r)
    (hmode : r.pricingMode = some PricingMode.LIST_DISCOUNT) :
    (calculatePrice ctx rules).netCost
        = round2 (specChainNet (r.discountChain.getD "") ctx.ListPrice)
      ∧ round2 (specChainNet "50/10" 100) = 45 := by
  constructor
  · have hnet : calculateNetCost ctx (some r)
        = round2 (specChainNet (r.discountChain.getD "") ctx.ListPrice) := by
      simp [calculateNetCost, hmode, specChainNet]
    cases htruthy : truthyOverride (some r) <;>
      simp [calculatePrice, hres, htruthy, hnet, round2_idem]
  · have h1 : jsSplit '/' "50/10" = ["50", "10"] := by decide
    have h2 : jsParseDecimal "50" = some ⟨false, 50, 0, 0⟩ := by decide
    have h3 : jsParseDecimal "10" = some ⟨false, 10, 0, 0⟩ := by decide
    have h4 : specChainNet "50/10" 100 = 45 := by
      simp [specChainNet, h1, jsParseFloat, h2, h3, parsedVal]
      norm_num
    rw [h4]
    unfold round2
    norm_num [round_eq]

def C1wRule : PricingRule :=
  { manufacturer := "ACME", markupPercentage := 0,
    pricingMode := some PricingMode.LIST_DISCOUNT, discountChain := some "50/10" }

def C1wRules : RuleMap := [("ACME", C1wRule)]

def C1wCtx : PricingContext := { ListPrice := 100, NetPrice := 0, Manufacturer := "ACME" }

/-- C1 witness: the theorem applied to the `"50/10"` rule at list price 100. -/
theorem C1_witness :
    (calculatePrice C1wCtx C1wRules).netCost
        = round2 (specChainNet (C1wRule.discountChain.getD "") C1wCtx.ListPrice)
      ∧ round2 (specChainNet "50/10" 100) = 45 :=
  C1_list_discount_netCost C1wCtx C1wRules C1wRule (by rfl) (by rfl)

/-! ## C2 -/

def C2xRule : PricingRule := { manufacturer := "ACME", markupPercentage := 0 }
def C2xRules : RuleMap := [("ACME", C2xRule)]
def C2xCtx : PricingContext := { ListPrice := 100, NetPrice := 10.005, Manufacturer := "ACME" }

/-- C2 counterexample: a rule with a missing pricing mode does not produce
`netCost = listPrice` as the claim states.  The code defaults a missing mode
to `AQ_NET`, and additionally rounds the returned net cost, so for
`netPrice = 10.005`, `listPrice = 100` the result is 10.01 — neither the
list price nor the raw net price. -/
theorem C2_counterexample :
    C2xRule.pricingMode = none
      ∧ (calculatePrice C2xCtx C2xRules).netCost = 10.01
      ∧ (calculatePrice C2xCtx C2xRules).netCost ≠ C2xCtx.ListPrice
      ∧ (calculatePrice C2xCtx C2xRules).netCost ≠ C2xCtx.NetPrice := by
  have hres : resolveRule C2xRules "ACME" = some C2xRule := rfl
  have hval : (calculatePrice C2xCtx C2xRules).netCost = 10.01 := by
    simp [calculatePrice, C2xCtx, hres, C2xRule, truthyOverride, calculateNetCost, round2]
    norm_num [round_eq]
  refine ⟨rfl, hval, ?_, ?_⟩ <;> rw [hval] <;> simp [C2xCtx] <;> norm_num

/-- C2 amended: whenever the effective pricing mode is `AQ_NET` — which
includes every rule with a missing mode, since the code defaults a missing
mode to `AQ_NET` rather than to the list price — and the resolved rule has
no nonzero `overridePrice`, the returned `netCost` is `netPrice` when
`netPrice > 0` and `listPrice` otherwise, rounded to two decimal places. -/
theorem C2_amended (ctx : PricingContext) (rules : RuleMap)
    (hmode : ((resolveRule rules ctx.Manufacturer).bind PricingRule.pricingMode).getD
        PricingMode.AQ_NET = PricingMode.AQ_NET)
    (hov : truthyOverride (resolveRule rules ctx.Manufacturer) = false) :
    (calculatePrice ctx rules).netCost
      = round2 (if ctx.NetPrice > 0 then ctx.NetPrice else ctx.ListPrice) := by
  have hnet : calculateNetCost ctx (resolveRule rules ctx.Manufacturer)
      = if ctx.NetPrice > 0 then ctx.NetPrice else ctx.ListPrice := by
    unfold calculateNetCost
    rw [hmode]
  simp [calculatePrice, hov, hnet]

def C2wCtx : PricingContext := { ListPrice := 100, NetPrice := 50, Manufacturer := "ACME" }

/-- C2 witness: the amended theorem applied with an empty rule map (the
resolved rule is absent, so the mode defaults to `AQ_NET`). -/
theorem C2_witness :
    (calculatePrice C2wCtx []).netCost
      = round2 (if C2wCtx.NetPrice > 0 then C2wCtx.NetPrice else C2wCtx.ListPrice) :=
  C2_amended C2wCtx [] (by rfl) (by rfl)

/-! ## C3 -/

def C3xRule : PricingRule :=
  { manufacturer := "DEFAULT", markupPercentage := 100, overridePrice := some 0 }
def C3xRules : RuleMap := [("DEFAULT", C3xRule)]
def C3xCtx : PricingContext := { ListPrice := 80, NetPrice := 50, Manufacturer := "ACME" }

/-- C3 counterexample: a rule whose `overridePrice` is set (to 0) does not
make `finalPrice` equal the override.  The code's truthiness test
`if (rule?.overridePrice)` skips the override branch for 0, so with markup
100% on net price 50 the final price is 100, not the set override 0. -/
theorem C3_counterexample :
    C3xRule.overridePrice = some 0
      ∧ resolveRule C3xRules C3xCtx.Manufacturer = some C3xRule
      ∧ (calculatePrice C3xCtx C3xRules).finalPrice = 100
      ∧ (calculatePrice C3xCtx C3xRules).finalPrice ≠ 0 := by
  have hres : resolveRule C3xRules "ACME" = some C3xRule := rfl
  have hval : (calculatePrice C3xCtx C3xRules).finalPrice = 100 := by
    simp [calculatePrice, C3xCtx, hres, C3xRule, truthyOverride, calculateNetCost, round2]
    norm_num [round_eq]
  refine ⟨rfl, hres, hval, ?_⟩
  rw [hval]; norm_num

/-- C3 amended: for the resolved rule (uppercased-manufacturer lookup with
`DEFAULT` fallback), `finalPrice` equals the rule's `overridePrice` whenever
it is set **and nonzero**, regardless of markup; when the override is absent
or zero, `finalPrice` is the pre-rounding net cost times
`(1 + markupPercentage/100)`, rounded to two decimal places. -/
theorem C3_amended (ctx : PricingContext) (rules : RuleMap) (r : PricingRule)
    (hres : resolveRule rules ctx.Manufacturer = some r) :
    (∀ p, r.overridePrice = some p → p ≠ 0 →
        (calculatePrice ctx rules).finalPrice = p)
    ∧ ((r.overridePrice = none ∨ r.overridePrice = some 0) →
        (calculatePrice ctx rules).finalPrice
          = round2 (calculateNetCost ctx (some r) * (1 + r.markupPercentage / 100))) := by
  constructor
  · intro p hp hpne
    have ht : truthyOverride (some r) = true := by
      simp [truthyOverride, hp, hpne]
    simp [calculatePrice, hres, ht, hp]
  · intro h
    have ht : truthyOverride (some r) = false := by
      rcases h with h | h <;> simp [truthyOverride, h]
    simp [calculatePrice, hres, ht]

def C3wRule : PricingRule :=
  { manufacturer := "DEFAULT", markupPercentage := 100, overridePrice := some 7 }
def C3wRules : RuleMap := [("DEFAULT", C3wRule)]
def C3wCtx : PricingContext := { ListPrice := 80, NetPrice := 50, Manufacturer := "ACME" }

/-- C3 witness: the amended theorem applied to a nonzero override (7):
the final price is 7 despite the 100% markup. -/
theorem C3_witness :
    (calculatePrice C3wCtx C3wRules).finalPrice = 7 :=
  (C3_amended C3wCtx C3wRules C3wRule (by rfl)).1 7 (by rfl) (by norm_num)

/-! ## C4 -/

def C4xRule : PricingRule :=
  { manufacturer := "DEFAULT", markupPercentage := 0, overridePrice := some 10.005 }
def C4xRules : RuleMap := [("DEFAULT", C4xRule)]
def C4xCtx : PricingContext := { ListPrice := 100, NetPrice := 20.005, Manufacturer := "ACME" }

/-- C4 counterexample: with a nonzero `overridePrice` the code returns both
`netCost` and `finalPrice` through the early-return branch, which does not
round: for override 10.005 and net price 20.005, both returned values carry
three decimals. -/
theorem C4_counterexample :
    (calculatePrice C4xCtx C4xRules).finalPrice = 10.005
      ∧ round2 ((calculatePrice C4xCtx C4xRules).finalPrice)
          ≠ (calculatePrice C4xCtx C4xRules).finalPrice
      ∧ (calculatePrice C4xCtx C4xRules).netCost = 20.005
      ∧ round2 ((calculatePrice C4xCtx C4xRules).netCost)
          ≠ (calculatePrice C4xCtx C4xRules).netCost := by
  have hres : resolveRule C4xRules "ACME" = some C4xRule := rfl
  have hfp : (calculatePrice C4xCtx C4xRules).finalPrice = 10.005 := by
    simp [calculatePrice, C4xCtx, hres, C4xRule, truthyOverride, calculateNetCost]
    norm_num
  have hnc : (calculatePrice C4xCtx C4xRules).netCost = 20.005 := by
    simp [calculatePrice, C4xCtx, hres, C4xRule, truthyOverride, calculateNetCost]
    norm_num
  refine ⟨hfp, ?_, hnc, ?_⟩
  · rw [hfp]; unfold round2; norm_num [round_eq]
  · rw [hnc]; unfold round2; norm_num [round_eq]

/-- C4 amended: `netCost` and `finalPrice` are both rounded to two decimal
places whenever the resolved rule has no nonzero `overridePrice`; with a
nonzero override the code returns both values unrounded. -/
theorem C4_amended (ctx : PricingContext) (rules : RuleMap)
    (hov : truthyOverride (resolveRule rules ctx.Manufacturer) = false) :
    round2 ((calculatePrice ctx rules).netCost) = (calculatePrice ctx rules).netCost
      ∧ round2 ((calculatePrice ctx rules).finalPrice)
          = (calculatePrice ctx rules).finalPrice := by
  simp [calculatePrice, hov]
  exact ⟨round2_idem _, round2_idem _⟩

def C4wCtx : PricingContext := { ListPrice := 100, NetPrice := 20.005, Manufacturer := "ACME" }

/-- C4 witness: the amended theorem applied with an empty rule map. -/
theorem C4_witness :
    round2 ((calculatePrice C4wCtx []).netCost) = (calculatePrice C4wCtx []).netCost
      ∧ round2 ((calculatePrice C4wCtx []).finalPrice)
          = (calculatePrice C4wCtx []).finalPrice :=
  C4_amended C4wCtx [] (by rfl)

/-! ## C10 -/

/-- C10: when the resolved rule's `overridePrice` is present but equal to 0,
`calculatePrice` does not short-circuit to the override: it returns exactly
the no-override result, net cost rounded and marked up by
`markupPercentage`. -/
theorem C10_zero_override (ctx : PricingContext) (rules : RuleMap) (r : PricingRule)
    (hres : resolveRule rules ctx.Manufacturer = some r)
    (hov : r.overridePrice = some 0) :
    calculatePrice ctx rules =
      { netCost := round2 (calculateNetCost ctx (some r)),
        finalPrice := round2 (calculateNetCost ctx (some r)
          * (1 + r.markupPercentage / 100)) } := by
  have ht : truthyOverride (some r) = false := by
    simp [truthyOverride, hov]
  simp [calculatePrice, hres, ht]

def C10wRule : PricingRule :=
  { manufacturer := "DEFAULT", markupPercentage := 50, overridePrice := some 0 }
def C10wRules : RuleMap := [("DEFAULT", C10wRule)]
def C10wCtx : PricingContext := { ListPrice := 80, NetPrice := 100, Manufacturer := "ACME" }

/-- C10 witness: the theorem applied to a rule with override 0 and 50%
markup. -/
theorem C10_witness :
    calculatePrice C10wCtx C10wRules =
      { netCost := round2 (calculateNetCost C10wCtx (some C10wRule)),
        finalPrice := round2 (calculateNetCost C10wCtx (some C10wRule)
          * (1 + C10wRule.markupPercentage / 100)) } :=
  C10_zero_override C10wCtx C10wRules C10wRule (by rfl) (by rfl)

/-! ## C5 -/

def C5product : AQProductM :=
  { productId := "p1", mfrName := "ACME", models := some { mfrModel := "X100" },
    pricing := some { netPrice := 0, listPrice := 100 } }

/-- C5: with zero variant-override rows, `syncProduct` builds exactly one
variant titled `Default Title` whose SKU is the model number — but the
variant's `price` field receives the entire `calculatePrice` result record
(both `netCost` and `finalPrice`), not the single `finalPrice` number the
claim states.  This theorem evaluates the embedded code at the failing
input: list price 100, no rules, no override rows. -/
theorem C5_default_variant :
    syncVariants C5product [] "X100" []
      = [ { price := { netCost := 100, finalPrice := 100 }, sku := "X100",
            option1 := "Default Title" } ]
      ∧ syncOptions [] = none := by
  constructor
  · simp [syncVariants, basePriceOf, C5product, syncPricingContext, calculatePrice,
      resolveRule, truthyOverride, calculateNetCost, jsToUpper, round2]
    norm_num [round_eq]
  · rfl

/-! ## C6 -/

def C6rule : PricingRule := { manufacturer := "DEFAULT", markupPercentage := 20 }
def C6rules : RuleMap := [("DEFAULT", C6rule)]
def C6product : AQProductM :=
  { productId := "p1", mfrName := "ACME", models := some { mfrModel := "X100" },
    pricing := some { netPrice := 0, listPrice := 100 } }
def C6rows : List SheetVariant :=
  [ { optionName := "Color", optionValue := "Red", priceMod := some 0, skuMod := "" },
    { optionName := "Color", optionValue := "Blue", priceMod := some 5, skuMod := "-BL" } ]

/-- C6 counterexample: the claim's price formula `finalPrice + priceModifier`
fails.  With a 20% markup rule, base list price 100 and rows Red/+0,
Blue/+5, the product's final price is 120, so the claim predicts prices
120 and 125; the code instead applies the modifier to the list price
*before* pricing, yielding 120 and `round2(105 × 1.2) = 126`. -/
theorem C6_counterexample :
    (calculatePrice (syncPricingContext C6product "X100" (basePriceOf C6product))
        C6rules).finalPrice = 120
      ∧ ((syncVariants C6product C6rules "X100" C6rows).map
          (fun v => v.price.finalPrice)) = [120, 126]
      ∧ ((126 : ℚ) ≠ 120 + 5)
      ∧ ((syncVariants C6product C6rules "X100" C6rows).map (fun v => v.sku))
          = ["X100", "X100-BL"] := by
  have hres : resolveRule C6rules "ACME" = some C6rule := rfl
  have h100 : (calculatePrice
      { ListPrice := 100, NetPrice := 0, Manufacturer := "ACME",
        ModelNumber := some "X100" } C6rules).finalPrice = 120 := by
    simp [calculatePrice, hres, C6rule, truthyOverride, calculateNetCost, round2]
    norm_num [round_eq]
  have h105 : (calculatePrice
      { ListPrice := 100 + 5, NetPrice := 0, Manufacturer := "ACME",
        ModelNumber := some "X100" } C6rules).finalPrice = 126 := by
    simp [calculatePrice, hres, C6rule, truthyOverride, calculateNetCost, round2]
    norm_num [round_eq]
  refine ⟨?_, ?_, by norm_num, ?_⟩
  · simpa [syncPricingContext, basePriceOf, C6product] using h100
  · simp [syncVariants, C6rows, syncPricingContext, basePriceOf, C6product]
    constructor
    · simpa using h100
    · simpa using h105
  · simp [syncVariants, C6rows]

/-- C6 amended: with one or more override rows, `syncProduct` builds exactly
one variant per row; the row at index `i` yields SKU
`modelNumber ++ skuMod`, option value `optionValue`, and a `price` field
holding the full pricing result computed over `basePrice + priceMod` (the
modifier adjusts the list price before pricing, it is not added to the
final price); a single option dimension is named after the first row. -/
theorem C6_amended (p : AQProductM) (rules : RuleMap) (modelNumber : String)
    (rows : List SheetVariant) (hne : rows ≠ []) (i : Nat) (v : SheetVariant)
    (hiv : rows[i]? = some v) :
    (syncVariants p rules modelNumber rows).length = rows.length
    ∧ (syncVariants p rules modelNumber rows)[i]?
        = some (ShopifyVariant.mk
            (calculatePrice (syncPricingContext p modelNumber (basePriceOf p + v.priceMod.getD 0)) rules)
            (modelNumber ++ v.skuMod) v.optionValue)
    ∧ syncOptions rows = some [(rows.head hne).optionName] := by
  have hlen0 : 0 < rows.length := List.length_pos.mpr hne
  refine ⟨?_, ?_, ?_⟩
  · simp [syncVariants, hlen0]
  · simp [syncVariants, hlen0, List.getElem?_map, hiv]
  · cases rows with
    | nil => exact absurd rfl hne
    | cons v0 rest => simp [syncOptions]

/-- C6 witness: the amended theorem applied to the Blue/+5 row. -/
theorem C6_witness :
    (syncVariants C6product C6rules "X100" C6rows)[1]?
      = some (ShopifyVariant.mk
          (calculatePrice (syncPricingContext C6product "X100" (basePriceOf C6product + (5 : ℚ))) C6rules)
          "X100-BL" "Blue") := by
  have h := C6_amended C6product C6rules "X100" C6rows (by simp [C6rows]) 1
    { optionName := "Color", optionValue := "Blue", priceMod := some 5, skuMod := "-BL" }
    (by rfl)
  simpa using h.2.1

/-! ## C7 -/

/-- C7: when the Drive image-override resolver returns a hit with a
non-empty base64 payload, the image list sent to the storefront is exactly
one entry with that payload as `attachment` and no `src`, replacing every
supplier picture; when the resolver returns nothing (which is also what it
returns on failure), the supplier-sourced list is kept unchanged. -/
theorem C7_image_override (p : AQProductM) (o : ImageOverride) (hbase : o.base64 ≠ "") :
    (syncImages p (some o) = [ { src := none, attachment := some o.base64 } ]
      ∧ ∀ img, img ∈ syncImages p (some o) →
          img.src = none ∧ ∃ b, img.attachment = some b ∧ b ≠ "")
    ∧ ∀ pics, p.pictures = some pics →
        syncImages p none = pics.map (fun pic => { src := some pic.url, attachment := none }) := by
  refine ⟨⟨rfl, ?_⟩, ?_⟩
  · intro img hmem
    simp [syncImages] at hmem
    subst hmem
    exact ⟨rfl, o.base64, rfl, hbase⟩
  · intro pics hp
    simp [syncImages, hp]

def C7product : AQProductM :=
  { productId := "p1", mfrName := "ACME", models := some { mfrModel := "X100" },
    pictures := some [ { url := "https://aq.example/x100.jpg" } ] }

def C7override : ImageOverride := { mimeType := "image/png", base64 := "QUJDRA==" }

/-- C7 witness: with a hit, the single supplier picture is replaced by one
attachment entry; without a hit it is kept. -/
theorem C7_witness :
    syncImages C7product (some C7override)
        = [ { src := none, attachment := some "QUJDRA==" } ]
      ∧ syncImages C7product none
        = [ { src := some "https://aq.example/x100.jpg", attachment := none } ] :=
  ⟨(C7_image_override C7product C7override (by decide)).1.1,
    (C7_image_override C7product C7override (by decide)).2
      [ { url := "https://aq.example/x100.jpg" } ] rfl⟩

/-! ## C8 -/

def C8fetch : String → Except String (List AQProductM) :=
  fun m => if m = "M1" then Except.error "AQ API unreachable" else Except.ok []

/-- C8 counterexample: the fetch loop of `syncAllProducts` sits inside a
single `try`, so when the first of two enabled manufacturers fails the
second is never attempted — contradicting the claim that remaining
manufacturers are still attempted (the method does still return without
rejecting, which is the claim's other half). -/
theorem C8_counterexample :
    attemptedManufacturers C8fetch ["M1", "M2"] = ["M1"]
      ∧ "M2" ∉ attemptedManufacturers C8fetch ["M1", "M2"]
      ∧ syncAllProducts C8fetch ["M1", "M2"] = Except.ok () := by
  refine ⟨rfl, ?_, rfl⟩
  have h : attemptedManufacturers C8fetch ["M1", "M2"] = ["M1"] := rfl
  rw [h]
  simp

/-- C8 amended: a supplier API failure while fetching one manufacturer's
product list aborts the whole fetch loop — manufacturers after the failing
one are not attempted — but `syncAllProducts` still completes without
throwing to its caller, for every input. -/
theorem C8_amended (fetch : String → Except String (List AQProductM))
    (m : String) (ms : List String) (e : String)
    (hfail : fetch m = Except.error e) :
    syncAllProducts fetch (m :: ms) = Except.ok ()
      ∧ attemptedManufacturers fetch (m :: ms) = [m]
      ∧ ∀ enabledMfrs, syncAllProducts fetch enabledMfrs = Except.ok () := by
  have hloop : fetchLoop fetch (m :: ms) = ([m], Except.error e) := by
    simp [fetchLoop, hfail]
  have hnothrow : ∀ enabledMfrs, syncAllProducts fetch enabledMfrs = Except.ok () := by
    intro enabledMfrs
    unfold syncAllProducts
    cases (fetchLoop fetch enabledMfrs).2 <;> rfl
  exact ⟨hnothrow _, by simp [attemptedManufacturers, hloop], hnothrow⟩

/-- C8 witness: the amended theorem applied to a fetch function failing on
the first of two manufacturers. -/
theorem C8_witness :
    syncAllProducts C8fetch ["M1", "M2"] = Except.ok ()
      ∧ attemptedManufacturers C8fetch ["M1", "M2"] = ["M1"]
      ∧ ∀ enabledMfrs, syncAllProducts C8fetch enabledMfrs = Except.ok () :=
  C8_amended C8fetch "M1" ["M2"] "AQ API unreachable" (by rfl)

/-! ## C9 -/

def C9state : BackendState :=
  { stateFile := { lastSync := none, enabledManufacturers := some ["M1", "M2"] },
    dbProducts := [ { aqMfrId := "M2", status := ProductStatus.staged } ] }

/-- C9 counterexample: removing manufacturer `M2` from the enabled set
leaves its staged product untouched (still `staged`), and `archived` is not
even a representable value of the product schema's status enum
(`['staged', 'synced', 'error']`). -/
theorem C9_counterexample :
    (setEnabledManufacturers C9state ["M1"]).dbProducts
        = [ { aqMfrId := "M2", status := ProductStatus.staged } ]
      ∧ (setEnabledManufacturers C9state ["M1"]).stateFile.enabledManufacturers
          = some ["M1"]
      ∧ "archived" ∉ productStatusStrings
      ∧ ∀ s : ProductStatus, statusToString s ∈ productStatusStrings := by
  refine ⟨rfl, rfl, by decide, ?_⟩
  intro s
  cases s <;> simp [statusToString, productStatusStrings]

/-- C9 amended: `setEnabledManufacturers` only persists the new id list in
the state file; it changes no product row and triggers no status
transition, and `archived` is not among the schema's status values. -/
theorem C9_amended (s : BackendState) (ids : List String) :
    (setEnabledManufacturers s ids).dbProducts = s.dbProducts
      ∧ (setEnabledManufacturers s ids).stateFile.enabledManufacturers = some ids
      ∧ (setEnabledManufacturers s ids).stateFile.lastSync = s.stateFile.lastSync
      ∧ "archived" ∉ productStatusStrings :=
  ⟨rfl, rfl, rfl, by decide⟩

end AutoquotesShopify
